import Mathlib

/-!
Verification of the semantic accessibility core: the `UIComponent` model
(`src/core/UIComponent.js`, `Button.js`, `InputField.js`, `NavigationRegion.js`),
the tree builder (`src/semantic/SemanticTree.js`) and the three analysis
services (`ScreenReaderService.js`, `KeyboardNavigator.js`, `AuditService.js`),
shallowly embedded as executable Lean definitions.

Conventions of the embedding:
* JavaScript exceptions are modelled with `Except String`, the `String` being
  the thrown error's message.
* A JavaScript value that may be `undefined` or a string is an `Option String`
  (`none` = `undefined`); JS string falsiness (`!x`) is `jsFalsy`.
* Child lists are mutual inductives (`UICList`, `RawList`) rather than nested
  `List`s so that all recursions are structural and reduce by `rfl`/`decide`.
* Methods that a subclass can override and make throw (`describe`, `navigate`,
  `getLabel`) are driven by the component's `Variant`; the `overridden` variant
  models an arbitrary misbehaving subclass, as contemplated by the services'
  `try`/`catch` recovery.
-/

/-! ## String utilities: `String.prototype.includes` -/

/-- Helper: `startsWithChars l sub` means `sub` is a leading segment of `l`. -/
def startsWithChars : List Char → List Char → Bool
  | _, [] => true
  | [], _ :: _ => false
  | a :: as, b :: bs => a == b && startsWithChars as bs

/-- Helper: `containsChars l sub` means `sub` occurs contiguously inside `l`
(JavaScript `String.prototype.includes` on char lists). -/
def containsChars : List Char → List Char → Bool
  | [], sub => sub.isEmpty
  | a :: t, sub => startsWithChars (a :: t) sub || containsChars t sub

/-- JavaScript `s.includes(sub)`. -/
def strContainsSub (s sub : String) : Bool :=
  containsChars s.toList sub.toList

/-- JavaScript `s.toLowerCase()`: per-character lowering (the same function as
`String.toLower`, written on the character list so that it reduces). -/
def jsToLower (s : String) : String := ⟨s.data.map Char.toLower⟩

/-- JS falsiness of a `string | undefined` value: `undefined` and `""` are falsy. -/
def jsFalsy : Option String → Bool
  | none => true
  | some s => s == ("")

/-- Truthiness of a state-bag lookup (`undefined` is falsy). -/
def truthy : Option Bool → Bool
  | none => false
  | some b => b

/-! ## Component model (`src/core/*.js`) -/

/-- Result of calling a (possibly overriding) JS method: a returned string or
a thrown error message. -/
inductive MethodImpl where
  | ok (value : String)
  | throws (msg : String)
deriving DecidableEq, Repr

/-- The concrete class of a component.  `button`, `inputField`, `navigationRegion`
are the three concrete variants of the repository; `overridden` stands for an
arbitrary further subclass whose `describe`/`navigate`/`getLabel` may throw
(`labelThrow = some m` means `getLabel()` throws with message `m`). -/
inductive Variant where
  | button
  | inputField (inputType : String)
  | navigationRegion
  | overridden (describeImpl navigateImpl : MethodImpl) (labelThrow : Option String)
deriving DecidableEq, Repr

mutual
/-- A constructed `UIComponent`: variant tag, `_id`, `_label`, `_role`,
`_state` (string-keyed boolean bag) and `_children`. -/
inductive UIComponent where
  | mk (variant : Variant) (id label role : String)
       (state : List (String × Bool)) (children : UICList)
deriving DecidableEq, Repr
/-- The `_children` array of a `UIComponent`. -/
inductive UICList where
  | nil
  | cons (c : UIComponent) (rest : UICList)
deriving DecidableEq, Repr
end

def UIComponent.variant : UIComponent → Variant
  | .mk v _ _ _ _ _ => v

def UIComponent.id : UIComponent → String
  | .mk _ i _ _ _ _ => i

def UIComponent.label : UIComponent → String
  | .mk _ _ l _ _ _ => l

def UIComponent.role : UIComponent → String
  | .mk _ _ _ r _ _ => r

def UIComponent.state : UIComponent → List (String × Bool)
  | .mk _ _ _ _ st _ => st

def UIComponent.children : UIComponent → UICList
  | .mk _ _ _ _ _ cs => cs

def UICList.length : UICList → Nat
  | .nil => 0
  | .cons _ rest => 1 + rest.length

/-- Append one component at the end (JS `Array.prototype.push`). -/
def UICList.push : UICList → UIComponent → UICList
  | .nil, c => .cons c .nil
  | .cons a rest, c => .cons a (rest.push c)

def UICList.toList : UICList → List UIComponent
  | .nil => []
  | .cons c rest => c :: rest.toList

/-- First-match lookup in the `_state` bag. -/
def stateGet : List (String × Bool) → String → Option Bool
  | [], _ => none
  | (k1, v) :: rest, k => if k1 == k then some v else stateGet rest k

/-- Key assignment in the `_state` bag (`this._state[key] = val`). -/
def stateSet : List (String × Bool) → String → Bool → List (String × Bool)
  | [], k, v => [(k, v)]
  | (k1, v1) :: rest, k, v => if k1 == k then (k, v) :: rest else (k1, v1) :: stateSet rest k v

/-- Source `getId()` — total. -/
def UIComponent.getId (c : UIComponent) : String := c.id

/-- Source `getRole()` — total. -/
def UIComponent.getRole (c : UIComponent) : String := c.role

/-- Source `getState(key)` — total; `undefined` for an absent key. -/
def UIComponent.getState (c : UIComponent) (key : String) : Option Bool :=
  stateGet c.state key

/-- Source `getLabel()` — returns `_label`, except for an overriding subclass whose
`getLabel` throws. -/
def UIComponent.getLabel (c : UIComponent) : Except String String :=
  match c.variant with
  | .overridden _ _ (some m) => .error m
  | _ => .ok c.label

/-- Source `getChildren()` — a shallow copy of `_children`; in the pure embedding the
copy is value-equal to the original list. -/
def UIComponent.getChildren (c : UIComponent) : UICList := c.children

/-- Source `describe()` of each concrete variant (from `Button.js`, `InputField.js`,
`NavigationRegion.js`); for `overridden` it runs the subclass implementation. -/
def UIComponent.describe (c : UIComponent) : Except String String :=
  match c.variant with
  | .button =>
      let dis := if truthy (c.getState ("disabled")) then (", disabled") else ("")
      .ok ("Button: \"" ++ c.label ++ "\"" ++ dis ++ ". Press Enter or Space to activate.")
  | .inputField ty =>
      let req := if truthy (c.getState ("required")) then (", required") else ("")
      .ok ("Input field: \"" ++ c.label ++ "\" (" ++ ty ++ ")" ++ req ++ ". Type to enter a value.")
  | .navigationRegion =>
      let count := c.children.length
      .ok ("Navigation region: \"" ++ c.label ++ "\" with " ++ toString count
           ++ " item" ++ (if count != 1 then ("s") else ("")) ++ ".")
  | .overridden d _ _ =>
      match d with
      | .ok s => .ok s
      | .throws m => .error m

/-- Source `navigate()` of each concrete variant; for `overridden` the subclass
implementation. -/
def UIComponent.navigate (c : UIComponent) : Except String String :=
  match c.variant with
  | .button => .ok ("Tab to focus \"" ++ c.label ++ "\" button. Enter or Space to click.")
  | .inputField _ => .ok ("Tab to focus \"" ++ c.label ++ "\" input. Type to enter value.")
  | .navigationRegion => .ok ("Tab into \"" ++ c.label ++ "\" navigation. Use arrow keys to move between links.")
  | .overridden _ n _ =>
      match n with
      | .ok s => .ok s
      | .throws m => .error m

/-! ## Constructors -/

/-- The shared `UIComponent` constructor body run via `super(id, label, role)`:
the three non-emptiness guards, in source order. -/
def uiComponentSuper (id label role : Option String) : Except String (String × String × String) :=
  if jsFalsy id then .error ("UIComponent requires a non-empty id.")
  else if jsFalsy label then .error ("UIComponent requires a non-empty label.")
  else if jsFalsy role then .error ("UIComponent requires a non-empty role.")
  else .ok (id.getD (""), label.getD (""), role.getD (""))

/-- Source `new UIComponent(...)` directly: the `new.target` guard fires before any
field validation, so this always throws. -/
def newUIComponent (_id _label _role : Option String) : Except String UIComponent :=
  .error ("UIComponent is abstract and cannot be instantiated directly.")

/-- Source `new Button(id, label)`. -/
def newButton (id label : Option String) : Except String UIComponent :=
  match uiComponentSuper id label (some ("button")) with
  | .error m => .error m
  | .ok (i, l, r) =>
      .ok (.mk .button i l r [(("focusable"), true), (("disabled"), false)] .nil)

/-- Source `new InputField(id, label, inputType)` (the builder always passes two
arguments, so `inputType` defaults to `"text"` there). -/
def newInputField (id label : Option String) (inputType : String) : Except String UIComponent :=
  match uiComponentSuper id label (some ("textbox")) with
  | .error m => .error m
  | .ok (i, l, r) =>
      .ok (.mk (.inputField inputType) i l r [(("focusable"), true), (("required"), false)] .nil)

/-- Source `new NavigationRegion(id, label)`. -/
def newNavigationRegion (id label : Option String) : Except String UIComponent :=
  match uiComponentSuper id label (some ("navigation")) with
  | .error m => .error m
  | .ok (i, l, r) =>
      .ok (.mk .navigationRegion i l r [(("expanded"), true)] .nil)

/-- Source `setLabel(label)` — throws on a falsy value, otherwise reassigns `_label`. -/
def UIComponent.setLabel (c : UIComponent) (label : Option String) : Except String UIComponent :=
  if jsFalsy label then .error ("Label cannot be empty.")
  else .ok (.mk c.variant c.id (label.getD ("")) c.role c.state c.children)

/-- Source `setState(key, val)`. -/
def UIComponent.setState (c : UIComponent) (key : String) (val : Bool) : UIComponent :=
  .mk c.variant c.id c.label c.role (stateSet c.state key val) c.children

/-- Source `addChild(component)` with a value that already is a `UIComponent` (the
`instanceof` guard cannot fire inside the typed embedding). -/
def UIComponent.addChild (c child : UIComponent) : UIComponent :=
  .mk c.variant c.id c.label c.role c.state (c.children.push child)

/-! ## Audit serialization (`toAuditObject`) -/

mutual
/-- Serialized form of a component: `{id, label, role, state, children}`. -/
inductive AuditObject where
  | mk (id label role : String) (state : List (String × Bool)) (children : AuditList)
deriving DecidableEq, Repr
/-- Serialized child list. -/
inductive AuditList where
  | nil
  | cons (a : AuditObject) (rest : AuditList)
deriving DecidableEq, Repr
end

mutual
/-- Source `toAuditObject()` — provided once at the abstract level, recursing over
children. -/
def UIComponent.toAuditObject : UIComponent → AuditObject
  | .mk _ i l r st cs => .mk i l r st (UICList.toAuditList cs)
def UICList.toAuditList : UICList → AuditList
  | .nil => .nil
  | .cons c rest => .cons c.toAuditObject (UICList.toAuditList rest)
end

/-! ## Raw Figma nodes and the tree builder (`src/semantic/SemanticTree.js`) -/

mutual
/-- An untrusted raw node from the design document: `null`, a non-object
primitive, or an object with optional `id`, `name` and `children` fields
(`children = RawList.nil` covers both an absent/non-array `children` field
and an empty array, which the builder treats identically). -/
inductive RawNode where
  | nullv
  | prim
  | obj (id name : Option String) (children : RawList)
deriving DecidableEq, Repr
/-- A raw `children` array. -/
inductive RawList where
  | nil
  | cons (n : RawNode) (rest : RawList)
deriving DecidableEq, Repr
end

/-- A recorded parse error `{ nodeId, message }`. -/
structure ParseError where
  nodeId : String
  message : String
deriving DecidableEq, Repr

/-- Source `node?.id ?? "unknown"` (note `""` is nullish-coalesced to itself, not to
`"unknown"`). -/
def rawNodeIdOrUnknown : RawNode → String
  | .obj (some i) _ _ => i
  | _ => ("unknown")

/-- Which constructor a `COMPONENT_MAP` entry invokes. -/
inductive FactoryKind where
  | fButton
  | fInput
  | fNavigation
deriving DecidableEq, Repr

/-- Source `COMPONENT_MAP` in its literal insertion order (`Object.keys` order). -/
def COMPONENT_MAP : List (String × FactoryKind) :=
  [(("button"), .fButton), (("input"), .fInput), (("textbox"), .fInput),
   (("nav"), .fNavigation), (("navigation"), .fNavigation)]

/-- Run a `COMPONENT_MAP` factory on a raw node's `id` and `name`. -/
def runFactory : FactoryKind → Option String → Option String → Except String UIComponent
  | .fButton, i, n => newButton i n
  | .fInput, i, n => newInputField i n ("text")
  | .fNavigation, i, n => newNavigationRegion i n

/-- Source `_resolveKey(name = "")`: lowercase the name, return the first
`COMPONENT_MAP` key that is a substring, else the lowercased name itself. -/
def resolveKey (name : Option String) : String :=
  let lower := jsToLower (name.getD (""))
  match (COMPONENT_MAP.map Prod.fst).find? (fun key => strContainsSub lower key) with
  | some key => key
  | none => lower

/-- The `Unsupported component type` parse-error message (an `undefined` name
renders as the string `"undefined"` in the template literal). -/
def unsupportedMessage (name : Option String) : String :=
  "Unsupported component type: \"" ++ (match name with | some s => s | none => ("undefined")) ++ "\". Skipped."

/-- Result of the JS bracket access `COMPONENT_MAP[key]` on the plain object
literal: besides the five own entries, access reaches the inherited members of
`Object.prototype`.  The only all-lowercase property names there (property
access is case-sensitive, and `key` is always lowercased) are `constructor`
(the `Object` constructor — truthy and callable) and `__proto__` (the accessor
returning `Object.prototype` — truthy but not callable); every other
unmatched key yields `undefined`. -/
inductive MapAccess where
  | own (fk : FactoryKind)
  | objectCtor
  | protoObject
  | missing
deriving DecidableEq, Repr

/-- JS `COMPONENT_MAP[key]`, prototype chain included. -/
def componentMapAccess (key : String) : MapAccess :=
  match List.lookup key COMPONENT_MAP with
  | some fk => .own fk
  | none =>
      if key == ("constructor") then .objectCtor
      else if key == ("__proto__") then .protoObject
      else .missing

/-- The value held in the `component` variable of `_parseNode` (and hence in
`_roots` and in `addChild` calls): a real `UIComponent`, or — on the
`constructor` prototype hit, where `factory(node)` is `Object(node)` and
returns its object argument — the raw node itself. -/
inductive ComponentValue where
  | typed (c : UIComponent)
  | raw (n : RawNode)
deriving DecidableEq, Repr

/-- V8-style message of the implicit `TypeError` raised by
`component.addChild(...)` when `component` is a plain object (a raw node)
with no such method. -/
def addChildNotAFunctionMsg : String := "component.addChild is not a function"

/-- V8-style message of the implicit `TypeError` raised by `factory(node)`
when `factory` is `Object.prototype` (the `__proto__` hit), not a function. -/
def factoryNotAFunctionMsg : String := "factory is not a function"

mutual
/-- Source `_parseNode(node)`, with the accumulated `this._errors` list threaded
through.  The `Except` layer is the JS exception channel: `.error m` is a
throw that escapes `_parseNode` (invalid node, a constructor guard, or the
non-callable `__proto__` factory).  The `factory` truthiness test takes the
factory branch on both prototype hits: `constructor` calls `Object(node)`,
which returns the raw node itself as the `component`, and the child loop then
runs against it. -/
def parseNode : RawNode → List ParseError → Except String (Option ComponentValue) × List ParseError
  | .nullv, errs => (.error ("Invalid node: expected an object."), errs)
  | .prim, errs => (.error ("Invalid node: expected an object."), errs)
  | .obj id name children, errs =>
      match componentMapAccess (resolveKey name) with
      | .own fk =>
          match runFactory fk id name with
          | .error m => (.error m, errs)
          | .ok component =>
              let r := parseChildren (.typed component) children errs
              (.ok (some r.1), r.2)
      | .objectCtor =>
          let r := parseChildren (.raw (.obj id name children)) children errs
          (.ok (some r.1), r.2)
      | .protoObject => (.error factoryNotAFunctionMsg, errs)
      | .missing =>
          (.ok none,
           errs ++ [⟨rawNodeIdOrUnknown (.obj id name children), unsupportedMessage name⟩])

/-- The child loop of `_parseNode`: each child is parsed inside `try`/`catch`,
a thrown child failure becoming one parse error keyed by the child's id.  A
truthy child result is passed to `component.addChild`: a typed parent accepts
a typed child, rejects a raw child with the `instanceof` guard's message, and
a raw parent has no `addChild` method at all, so the call itself throws. -/
def parseChildren : ComponentValue → RawList → List ParseError → ComponentValue × List ParseError
  | parent, .nil, errs => (parent, errs)
  | parent, .cons child rest, errs =>
      match parseNode child errs with
      | (.ok (some cc), e1) =>
          match parent, cc with
          | .typed pc, .typed c => parseChildren (.typed (pc.addChild c)) rest e1
          | .typed _, .raw _ =>
              parseChildren parent rest
                (e1 ++ [⟨rawNodeIdOrUnknown child, ("Child must be a UIComponent instance.")⟩])
          | .raw n, _ =>
              parseChildren (.raw n) rest
                (e1 ++ [⟨rawNodeIdOrUnknown child, addChildNotAFunctionMsg⟩])
      | (.ok none, e1) => parseChildren parent rest e1
      | (.error m, e1) => parseChildren parent rest (e1 ++ [⟨rawNodeIdOrUnknown child, m⟩])
end

/-- The top-level loop of `build`: each root node parsed inside `try`/`catch`;
any truthy result (a typed component or a raw node from the `constructor`
hit) is pushed onto `_roots`. -/
def buildLoop : List RawNode → List ComponentValue → List ParseError → List ComponentValue × List ParseError
  | [], roots, errs => (roots, errs)
  | n :: ns, roots, errs =>
      match parseNode n errs with
      | (.ok (some c), e1) => buildLoop ns (roots ++ [c]) e1
      | (.ok none, e1) => buildLoop ns roots e1
      | (.error m, e1) => buildLoop ns roots (e1 ++ [⟨rawNodeIdOrUnknown n, m⟩])

/-- A JavaScript argument as seen through `Array.isArray`: either not an
array, or an array of elements. -/
inductive JsArg (α : Type) where
  | notArray
  | array (xs : List α)
deriving DecidableEq

/-- The `SemanticTree` instance state: `_roots` and `_errors`. -/
structure SemanticTree where
  roots : List ComponentValue
  errors : List ParseError
deriving DecidableEq

/-- Source `new SemanticTree()`. -/
def SemanticTree.init : SemanticTree := ⟨[], []⟩

/-- Source `getRoots()` (value-level; the array-aliasing behaviour of the spread copy
is modelled separately by the `Store` development below). -/
def SemanticTree.getRoots (t : SemanticTree) : List ComponentValue := t.roots

/-- Source `getErrors()`. -/
def SemanticTree.getErrors (t : SemanticTree) : List ParseError := t.errors

/-- Source `build(nodes)`: throws on a non-array argument leaving the state intact,
otherwise replaces the whole state with a freshly computed result. -/
def SemanticTree.build (t : SemanticTree) : JsArg RawNode → Except String Unit × SemanticTree
  | .notArray => (.error ("SemanticTree.build() expects an array of nodes."), t)
  | .array ns =>
      let r := buildLoop ns [] []
      (.ok (), ⟨r.1, r.2⟩)

/-- Serialized form of the whole tree (`toJSON()`). -/
structure TreeJSON where
  components : List AuditObject
  errors : List ParseError
deriving DecidableEq

/-- The `this._roots.map(r => r.toAuditObject())` body of `toJSON()`: a raw
node among the roots has no `toAuditObject` method, so the map throws at the
first such element. -/
def rootsToAuditObjects : List ComponentValue → Except String (List AuditObject)
  | [] => .ok []
  | .typed c :: rest =>
      match rootsToAuditObjects rest with
      | .ok xs => .ok (c.toAuditObject :: xs)
      | .error m => .error m
  | .raw _ :: _ => .error ("r.toAuditObject is not a function")

/-- Source `toJSON()`. -/
def SemanticTree.toJSON (t : SemanticTree) : Except String TreeJSON :=
  match rootsToAuditObjects t.roots with
  | .ok comps => .ok ⟨comps, t.errors⟩
  | .error m => .error m

/-! ## Reading-order service (`ScreenReaderService.js`) -/

mutual
/-- Source `_traverse(component, output)`: the `describe()` call and the child loop
sit inside one `try`, so a throwing `describe()` yields the placeholder line
and skips the children; recursive child calls never throw. -/
def srTraverse : UIComponent → List String
  | .mk v i l r st cs =>
      match UIComponent.describe (.mk v i l r st cs) with
      | .ok s => s :: srTraverseList cs
      | .error m => ["[Screen reader error for component: " ++ m ++ "]"]
def srTraverseList : UICList → List String
  | .nil => []
  | .cons c rest => srTraverse c ++ srTraverseList rest
end

/-- Source `generateReadingOrder(roots)`. -/
def generateReadingOrder : JsArg UIComponent → Except String (List String)
  | .notArray => .error ("generateReadingOrder expects an array of UIComponents.")
  | .array roots => .ok ((roots.map srTraverse).flatten)

/-! ## Focus-order service (`KeyboardNavigator.js`) -/

/-- One tab-order record `{label, hint}`. -/
structure TabEntry where
  label : String
  hint : String
deriving DecidableEq, Repr

mutual
/-- Source `_collect(component, order)`: everything, the child loop included, sits in
one `try`; a throwing `getLabel()`/`navigate()` yields the placeholder entry
and skips the children. -/
def kbCollect : UIComponent → List TabEntry
  | .mk v i l r st cs =>
      let c := UIComponent.mk v i l r st cs
      if truthy (c.getState ("focusable")) then
        match c.getLabel with
        | .error m => [⟨("unknown"), "[Navigation error: " ++ m ++ "]"⟩]
        | .ok lab =>
            match c.navigate with
            | .error m => [⟨("unknown"), "[Navigation error: " ++ m ++ "]"⟩]
            | .ok h => ⟨lab, h⟩ :: kbCollectList cs
      else kbCollectList cs
def kbCollectList : UICList → List TabEntry
  | .nil => []
  | .cons c rest => kbCollect c ++ kbCollectList rest
end

/-- Source `buildTabOrder(roots)`. -/
def buildTabOrder : JsArg UIComponent → Except String (List TabEntry)
  | .notArray => .error ("buildTabOrder expects an array of UIComponents.")
  | .array roots => .ok ((roots.map kbCollect).flatten)

/-! ## Audit service (`AuditService.js`) -/

/-- Identifiers of the `RULES` table. -/
inductive RuleId where
  | LABEL_EMPTY
  | ROLE_PRESENT
  | FOCUSABLE_BUTTON
deriving DecidableEq, Repr

/-- A rule's `id` string. -/
def RuleId.name : RuleId → String
  | .LABEL_EMPTY => ("LABEL_EMPTY")
  | .ROLE_PRESENT => ("ROLE_PRESENT")
  | .FOCUSABLE_BUTTON => ("FOCUSABLE_BUTTON")

/-- A rule's `check(c)`: `some issue` on failure, `none` on pass; the
`Except` layer carries a throw from a misbehaving accessor. -/
def RuleId.check : RuleId → UIComponent → Except String (Option String)
  | .LABEL_EMPTY, c =>
      match c.getLabel with
      | .error m => .error m
      | .ok l =>
          .ok (if l == ("") || l.trim == ("")
               then some ("Component [" ++ c.getId ++ "] has an empty label.")
               else none)
  | .ROLE_PRESENT, c =>
      if c.getRole == ("") || (c.getRole).trim == ("") then
        match c.getLabel with
        | .error m => .error m
        | .ok l => .ok (some ("Component [" ++ c.getId ++ "] \"" ++ l ++ "\" is missing an ARIA role."))
      else .ok none
  | .FOCUSABLE_BUTTON, c =>
      if c.getRole == ("button") && !(truthy (c.getState ("focusable"))) then
        match c.getLabel with
        | .error m => .error m
        | .ok l => .ok (some ("Button \"" ++ l ++ "\" [" ++ c.getId ++ "] is not marked as focusable."))
      else .ok none

/-- The fixed ordered rule table. -/
def RULES : List RuleId := [.LABEL_EMPTY, .ROLE_PRESENT, .FOCUSABLE_BUTTON]

/-- The rule loop over one component: entries appended so far, and the
message of the first throw if one occurred (which aborts the loop). -/
def runRulesLoop (c : UIComponent) : List RuleId → List String → List String →
    (List String × List String) × Option String
  | [], passed, failed => ((passed, failed), none)
  | r :: rest, passed, failed =>
      match r.check c with
      | .error m => ((passed, failed), some m)
      | .ok (some issue) =>
          runRulesLoop c rest passed (failed ++ ["[" ++ r.name ++ "] " ++ issue])
      | .ok none =>
          match c.getLabel with
          | .error m => ((passed, failed), some m)
          | .ok l =>
              runRulesLoop c rest (passed ++ ["[" ++ r.name ++ "] \"" ++ l ++ "\" passed."]) failed

mutual
/-- Source `_auditComponent(component, passed, failed)`: rule loop and child loop in
one `try`; a throw mid-rules keeps the entries already pushed, appends one
`AUDIT_ERROR` entry, and skips the children. -/
def auditComponent : UIComponent → List String × List String
  | .mk v i l r st cs =>
      let c := UIComponent.mk v i l r st cs
      match runRulesLoop c RULES [] [] with
      | ((p, f), some m) =>
          (p, f ++ ["[AUDIT_ERROR] Unexpected error auditing component: " ++ m])
      | ((p, f), none) =>
          let cr := auditListLoop cs
          (p ++ cr.1, f ++ cr.2)
def auditListLoop : UICList → List String × List String
  | .nil => ([], [])
  | .cons c rest =>
      let a := auditComponent c
      let b := auditListLoop rest
      (a.1 ++ b.1, a.2 ++ b.2)
end

/-- The audit result `{ passed, failed }`. -/
structure AuditResult where
  passed : List String
  failed : List String
deriving DecidableEq, Repr

/-- Source `runAudit(roots)`. -/
def runAudit : JsArg UIComponent → Except String AuditResult
  | .notArray => .error ("runAudit expects an array of UIComponents.")
  | .array roots =>
      let parts := roots.map auditComponent
      .ok ⟨(parts.map Prod.fst).flatten, (parts.map Prod.snd).flatten⟩

/-! ## Specification-side definitions (for refinement statements) -/

/-- Whether an `Except` call raised (threw). -/
def Except.raised {ε α : Type} : Except ε α → Bool
  | .error _ => true
  | .ok _ => false

/-- A variant is one of the repository's three concrete component classes
(no misbehaving override anywhere). -/
def realVariant : Variant → Bool
  | .overridden _ _ _ => false
  | _ => true

mutual
/-- All components of a tree are instances of the three concrete classes. -/
def wellBehaved : UIComponent → Bool
  | .mk v _ _ _ _ cs => realVariant v && wellBehavedList cs
def wellBehavedList : UICList → Bool
  | .nil => true
  | .cons c rest => wellBehaved c && wellBehavedList rest
end

mutual
/-- Spec-shaped pre-order flattening: a component before its children,
children in document order. -/
def preorderComponents : UIComponent → List UIComponent
  | .mk v i l r st cs => UIComponent.mk v i l r st cs :: preorderList cs
def preorderList : UICList → List UIComponent
  | .nil => []
  | .cons c rest => preorderComponents c ++ preorderList rest
end

/-- Pre-order flattening of a root sequence. -/
def preorderAll (roots : List UIComponent) : List UIComponent :=
  (roots.map preorderComponents).flatten

/-- The `navigate()` hint of a component whose `navigate` returns normally. -/
def specHint (c : UIComponent) : String :=
  match c.navigate with
  | .ok h => h
  | .error _ => ("")

/-- Modelled from the spec (section 4.4): the tab order is the pre-order
sequence restricted to components whose `focusable` state entry is truthy,
each contributing the pair of its label and its `navigate()` hint. -/
def specTabOrder (roots : List UIComponent) : List TabEntry :=
  ((preorderAll roots).filter fun c => truthy (c.getState ("focusable"))).map
    fun c => ⟨c.label, specHint c⟩

/-- The pure outcome of a rule check on a component with working accessors:
`some issue` on failure, `none` on pass. -/
def rulePureCheck : RuleId → UIComponent → Option String
  | .LABEL_EMPTY, c =>
      if c.label == ("") || (c.label).trim == ("")
      then some ("Component [" ++ c.getId ++ "] has an empty label.")
      else none
  | .ROLE_PRESENT, c =>
      if c.getRole == ("") || (c.getRole).trim == ("")
      then some ("Component [" ++ c.getId ++ "] \"" ++ c.label ++ "\" is missing an ARIA role.")
      else none
  | .FOCUSABLE_BUTTON, c =>
      if c.getRole == ("button") && !(truthy (c.getState ("focusable")))
      then some ("Button \"" ++ c.label ++ "\" [" ++ c.getId ++ "] is not marked as focusable.")
      else none

/-- Modelled from the spec (section 4.5): for one component, each rule in
table order contributes exactly one formatted entry, to `passed` or to
`failed`. -/
def specRuleEntriesLoop (c : UIComponent) : List RuleId → List String × List String
  | [] => ([], [])
  | r :: rest =>
      let acc := specRuleEntriesLoop c rest
      match rulePureCheck r c with
      | some issue => (acc.1, ("[" ++ r.name ++ "] " ++ issue) :: acc.2)
      | none => (("[" ++ r.name ++ "] \"" ++ c.label ++ "\" passed.") :: acc.1, acc.2)

/-- Modelled from the spec (section 4.5): the audit output over a root
sequence, components in pre-order, rules in table order. -/
def specAudit (roots : List UIComponent) : AuditResult :=
  ⟨((preorderAll roots).map fun c => (specRuleEntriesLoop c RULES).1).flatten,
   ((preorderAll roots).map fun c => (specRuleEntriesLoop c RULES).2).flatten⟩

/-- Modelled from the spec (section 4.2 step 2): classification as an
explicit ordered chain of substring tests, first match wins. -/
def specClassify (lower : String) : String :=
  if strContainsSub lower ("button") then ("button")
  else if strContainsSub lower ("input") then ("input")
  else if strContainsSub lower ("textbox") then ("textbox")
  else if strContainsSub lower ("nav") then ("nav")
  else if strContainsSub lower ("navigation") then ("navigation")
  else lower

/-! ## A store model for the array-copying accessors

`getRoots()`/`getErrors()` return `[...this._list]`: a freshly allocated
array whose contents equal the stored one.  The `Store` models JS array
identities: each cell is one array object, a reference is an index. -/

/-- A heap of array objects of element type `α`. -/
structure Store (α : Type) where
  cells : List (List α)

/-- Allocate a fresh array object holding `v`; returns its reference. -/
def Store.alloc {α : Type} (s : Store α) (v : List α) : Nat × Store α :=
  (s.cells.length, ⟨s.cells ++ [v]⟩)

/-- Dereference an array object. -/
def Store.read {α : Type} (s : Store α) (i : Nat) : List α :=
  s.cells.getD i []

/-- Mutate an array object in place (covers removing/appending elements:
the new contents are arbitrary). -/
def Store.write {α : Type} (s : Store α) (i : Nat) (v : List α) : Store α :=
  ⟨s.cells.set i v⟩

/-- The `SemanticTree` instance with its `_roots` and `_errors` arrays held
by reference in the two stores. -/
structure SemanticTreeRefs where
  rootsRef : Nat
  errorsRef : Nat

/-- Source `getRoots()` under the store model: `return [...this._roots]`. -/
def getRootsH (t : SemanticTreeRefs) (s : Store UIComponent) : Nat × Store UIComponent :=
  s.alloc (s.read t.rootsRef)

/-- Source `getErrors()` under the store model: `return [...this._errors]`. -/
def getErrorsH (t : SemanticTreeRefs) (s : Store ParseError) : Nat × Store ParseError :=
  s.alloc (s.read t.errorsRef)

/-- Source `toJSON()` under the store model: reads the stored arrays directly. -/
def toJSONH (t : SemanticTreeRefs) (sc : Store UIComponent) (se : Store ParseError) : TreeJSON :=
  ⟨(sc.read t.rootsRef).map UIComponent.toAuditObject, se.read t.errorsRef⟩

/-! ## Concrete sample components (used by concrete instantiations) -/

/-- The component `new Button("b1", "Home Button")` evaluates to. -/
def sampleHome : UIComponent :=
  .mk .button ("b1") ("Home Button") ("button")
    [(("focusable"), true), (("disabled"), false)] .nil

/-- The component `new Button("b2", "About Button")` evaluates to. -/
def sampleAbout : UIComponent :=
  .mk .button ("b2") ("About Button") ("button")
    [(("focusable"), true), (("disabled"), false)] .nil

/-- A `NavigationRegion` with the two sample buttons as children. -/
def sampleNav : UIComponent :=
  .mk .navigationRegion ("n1") ("Main Nav") ("navigation")
    [(("expanded"), true)] (.cons sampleHome (.cons sampleAbout .nil))

/-- The component `new NavigationRegion("n1", "Nav")` evaluates to. -/
def sampleNavEmpty : UIComponent :=
  .mk .navigationRegion ("n1") ("Nav") ("navigation") [(("expanded"), true)] .nil

/-- A raw node named `Constructor`: its lowercased name contains none of the
five vocabulary substrings, yet `COMPONENT_MAP["constructor"]` hits the
inherited `Object` constructor.  It carries one classifiable `Button` child. -/
def ctorNode : RawNode :=
  .obj (some ("x1")) (some ("Constructor"))
    (.cons (.obj (some ("b1")) (some ("Submit Button")) .nil) .nil)

/-- A misbehaving subclass instance whose `describe()` and `navigate()` both
throw `boom`, with one well-formed `Button` child. -/
def brokenPanel : UIComponent :=
  .mk (.overridden (.throws ("boom")) (.throws ("boom")) none)
    ("p1") ("Panel") ("button") [(("focusable"), true)]
    (.cons (.mk .button ("btn-1") ("Home") ("button")
      [(("focusable"), true), (("disabled"), false)] .nil) .nil)

/-- A misbehaving subclass instance whose `getLabel()` throws `boom`, with one
well-formed `Button` child. -/
def brokenLabelPanel : UIComponent :=
  .mk (.overridden (.ok ("d")) (.ok ("n")) (some ("boom")))
    ("a1") ("X") ("button") []
    (.cons (.mk .button ("btn-1") ("Home") ("button")
      [(("focusable"), true), (("disabled"), false)] .nil) .nil)

/-! ## Helper lemmas -/

theorem getLabel_of_real (c : UIComponent) (h : realVariant c.variant = true) :
    c.getLabel = .ok c.label := by
  cases c with
  | mk v i l r st cs =>
      cases v <;> simp_all [UIComponent.getLabel, UIComponent.variant, realVariant]

theorem navigate_of_real (c : UIComponent) (h : realVariant c.variant = true) :
    c.navigate = .ok (specHint c) := by
  cases c with
  | mk v i l r st cs =>
      cases v <;> simp_all [UIComponent.navigate, UIComponent.variant, realVariant, specHint]

theorem check_of_real (r : RuleId) (c : UIComponent) (h : realVariant c.variant = true) :
    r.check c = .ok (rulePureCheck r c) := by
  cases r <;>
    simp only [RuleId.check, rulePureCheck, getLabel_of_real c h] <;>
    split <;> rfl

theorem runRulesLoop_of_real (c : UIComponent) (h : realVariant c.variant = true) :
    ∀ (rules : List RuleId) (p f : List String),
      runRulesLoop c rules p f =
        ((p ++ (specRuleEntriesLoop c rules).1, f ++ (specRuleEntriesLoop c rules).2), none) := by
  intro rules
  induction rules with
  | nil => intro p f; simp [runRulesLoop, specRuleEntriesLoop]
  | cons r rest ih =>
      intro p f
      simp only [runRulesLoop, check_of_real r c h, specRuleEntriesLoop]
      cases hc : rulePureCheck r c with
      | some issue => simp [ih]
      | none => simp [getLabel_of_real c h, ih]

theorem wellBehaved_mk (v : Variant) (i l r : String) (st : List (String × Bool))
    (cs : UICList) (h : wellBehaved (.mk v i l r st cs) = true) :
    realVariant v = true ∧ wellBehavedList cs = true := by
  simpa [wellBehaved, Bool.and_eq_true] using h

mutual
theorem auditComponent_spec (c : UIComponent) (h : wellBehaved c = true) :
    auditComponent c =
      (((preorderComponents c).map fun x => (specRuleEntriesLoop x RULES).1).flatten,
       ((preorderComponents c).map fun x => (specRuleEntriesLoop x RULES).2).flatten) := by
  cases c with
  | mk v i l r st cs =>
      obtain ⟨hv, hl⟩ := wellBehaved_mk v i l r st cs h
      have hvr : realVariant (UIComponent.mk v i l r st cs).variant = true := by
        simpa [UIComponent.variant] using hv
      simp only [auditComponent, runRulesLoop_of_real _ hvr, List.nil_append,
        auditListLoop_spec cs hl, preorderComponents, List.map_cons, List.flatten_cons]
theorem auditListLoop_spec (l : UICList) (h : wellBehavedList l = true) :
    auditListLoop l =
      (((preorderList l).map fun x => (specRuleEntriesLoop x RULES).1).flatten,
       ((preorderList l).map fun x => (specRuleEntriesLoop x RULES).2).flatten) := by
  cases l with
  | nil => simp [auditListLoop, preorderList]
  | cons c rest =>
      have hc : wellBehaved c = true ∧ wellBehavedList rest = true := by
        simpa [wellBehavedList, Bool.and_eq_true] using h
      simp only [auditListLoop, auditComponent_spec c hc.1, auditListLoop_spec rest hc.2,
        preorderList, List.map_append, List.flatten_append]
end

mutual
theorem kbCollect_spec (c : UIComponent) (h : wellBehaved c = true) :
    kbCollect c =
      ((preorderComponents c).filter fun x => truthy (x.getState ("focusable"))).map
        fun x => ⟨x.label, specHint x⟩ := by
  cases c with
  | mk v i l r st cs =>
      obtain ⟨hv, hl⟩ := wellBehaved_mk v i l r st cs h
      have hvr : realVariant (UIComponent.mk v i l r st cs).variant = true := by
        simpa [UIComponent.variant] using hv
      simp only [kbCollect, getLabel_of_real _ hvr, navigate_of_real _ hvr,
        kbCollectList_spec cs hl, preorderComponents, List.filter_cons]
      by_cases hf : truthy ((UIComponent.mk v i l r st cs).getState ("focusable")) = true
      · simp [hf]
      · simp [Bool.not_eq_true] at hf
        simp [hf]
theorem kbCollectList_spec (l : UICList) (h : wellBehavedList l = true) :
    kbCollectList l =
      ((preorderList l).filter fun x => truthy (x.getState ("focusable"))).map
        fun x => ⟨x.label, specHint x⟩ := by
  cases l with
  | nil => simp [kbCollectList, preorderList]
  | cons c rest =>
      have hc : wellBehaved c = true ∧ wellBehavedList rest = true := by
        simpa [wellBehavedList, Bool.and_eq_true] using h
      simp only [kbCollectList, kbCollect_spec c hc.1, kbCollectList_spec rest hc.2,
        preorderList, List.filter_append, List.map_append]
end

theorem specRuleEntriesLoop_length (c : UIComponent) :
    ∀ rules : List RuleId,
      (specRuleEntriesLoop c rules).1.length + (specRuleEntriesLoop c rules).2.length
        = rules.length := by
  intro rules
  induction rules with
  | nil => simp [specRuleEntriesLoop]
  | cons r rest ih =>
      simp only [specRuleEntriesLoop]
      cases rulePureCheck r c <;> simp <;> omega

theorem specAudit_parts_length (comps : List UIComponent) :
    ((comps.map fun c => (specRuleEntriesLoop c RULES).1).flatten).length
      + ((comps.map fun c => (specRuleEntriesLoop c RULES).2).flatten).length
      = 3 * comps.length := by
  induction comps with
  | nil => simp
  | cons c rest ih =>
      have h3 : (specRuleEntriesLoop c RULES).1.length + (specRuleEntriesLoop c RULES).2.length
          = 3 := specRuleEntriesLoop_length c RULES
      simp only [List.map_cons, List.flatten_cons, List.length_append, List.length_cons]
      omega

theorem preorderAll_cons (r : UIComponent) (rs : List UIComponent) :
    preorderAll (r :: rs) = preorderComponents r ++ preorderAll rs := by
  simp [preorderAll]

theorem flatten_kbCollect (roots : List UIComponent) (h : roots.all wellBehaved = true) :
    (roots.map kbCollect).flatten = specTabOrder roots := by
  induction roots with
  | nil => simp [specTabOrder, preorderAll]
  | cons r rest ih =>
      simp only [List.all_cons, Bool.and_eq_true] at h
      simp only [List.map_cons, List.flatten_cons, kbCollect_spec r h.1, ih h.2,
        specTabOrder, preorderAll_cons, List.filter_append, List.map_append]

theorem flatten_audit (roots : List UIComponent) (h : roots.all wellBehaved = true) :
    ((roots.map auditComponent).map Prod.fst).flatten = (specAudit roots).passed
    ∧ ((roots.map auditComponent).map Prod.snd).flatten = (specAudit roots).failed := by
  induction roots with
  | nil => simp [specAudit, preorderAll]
  | cons r rest ih =>
      simp only [List.all_cons, Bool.and_eq_true] at h
      obtain ⟨ih1, ih2⟩ := ih h.2
      constructor <;>
        simp only [List.map_cons, List.flatten_cons, auditComponent_spec r h.1, ih1, ih2,
          specAudit, preorderAll_cons, List.map_append, List.flatten_append]

theorem store_read_alloc_old {α : Type} (s : Store α) (v : List α) (i : Nat)
    (h : i < s.cells.length) : ((s.alloc v).2).read i = s.read i := by
  simp [Store.alloc, Store.read, List.getD, List.getElem?_append, h]

theorem store_read_alloc_new {α : Type} (s : Store α) (v : List α) :
    ((s.alloc v).2).read (s.alloc v).1 = v := by
  simp [Store.alloc, Store.read, List.getD, List.getElem?_append]

theorem store_read_write_ne {α : Type} (s : Store α) (i j : Nat) (v : List α)
    (h : i ≠ j) : (s.write i v).read j = s.read j := by
  simp [Store.write, Store.read, List.getD, List.getElem?_set_ne h]

/-! ## Claim theorems -/

/-- Counterexample to claim C1 as stated: the node named `Constructor`
matches no entry of the classification vocabulary (first conjunct), yet build
records NO `Unsupported component type` parse error, DOES produce a
component for the node (the raw node itself is pushed as a root), and DOES
visit the subtree: the single recorded error is keyed by the child's id
`b1`, raised by the `addChild` call on the raw parent. -/
theorem claim_C1_counterexample :
    ((COMPONENT_MAP.map Prod.fst).all
        (fun key => !(strContainsSub (jsToLower ("Constructor")) key)) = true)
    ∧ parseNode ctorNode []
        = (.ok (some (.raw ctorNode)), [⟨("b1"), addChildNotAFunctionMsg⟩])
    ∧ (SemanticTree.init.build (.array [ctorNode])).2.getRoots = [.raw ctorNode]
    ∧ (SemanticTree.init.build (.array [ctorNode])).2.getErrors
        = [⟨("b1"), addChildNotAFunctionMsg⟩]
    ∧ ∀ e ∈ (SemanticTree.init.build (.array [ctorNode])).2.getErrors,
        e.message ≠ unsupportedMessage (some ("Constructor")) ∧ e.nodeId = ("b1") := by
  refine ⟨by decide, rfl, rfl, rfl, by decide⟩

/-- Claim C1 (amended): for a raw node whose resolved key matches no
`COMPONENT_MAP` entry AND is not one of the two inherited `Object.prototype`
member names reachable through the bracket access (`constructor` and
`__proto__`), `_parseNode` records exactly one parse error, whose message
names the unsupported type and the node's raw name, produces no component,
and leaves the node's subtree unvisited: the result is the same for every
`children` list, so no descendant contributes a component or a parse error.
(At the prototype keys the factory branch is taken instead: a `constructor`
node yields the raw node itself as a component with its subtree visited, and
a `__proto__` node throws, degraded by the caller to one parse error.) -/
theorem claim_C1 (id name : Option String) (children : RawList) (errs : List ParseError)
    (h : componentMapAccess (resolveKey name) = .missing) :
    parseNode (.obj id name children) errs =
      (.ok none,
       errs ++ [⟨rawNodeIdOrUnknown (.obj id name children), unsupportedMessage name⟩]) := by
  simp [parseNode, h]

/-- Witness for the amended C1: an `UnknownWidget` node with a classifiable
child yields one parse error keyed `x1` and no component; the child is never
parsed. -/
theorem claim_C1_witness :
    parseNode (.obj (some ("x1")) (some ("UnknownWidget"))
        (.cons (.obj (some ("b1")) (some ("Submit Button")) .nil) .nil)) [] =
      (.ok none, [⟨("x1"), unsupportedMessage (some ("UnknownWidget"))⟩]) := by
  have h := claim_C1 (some ("x1")) (some ("UnknownWidget"))
      (.cons (.obj (some ("b1")) (some ("Submit Button")) .nil) .nil) [] (by rfl)
  simpa [rawNodeIdOrUnknown] using h

/-- Claim C7: `build` on a non-array argument throws and leaves the stored
result untouched: `getRoots`/`getErrors` afterwards observe the old state. -/
theorem claim_C7 (t : SemanticTree) :
    (t.build .notArray).1 = .error ("SemanticTree.build() expects an array of nodes.")
    ∧ ((t.build .notArray).2).getRoots = t.getRoots
    ∧ ((t.build .notArray).2).getErrors = t.getErrors :=
  ⟨rfl, rfl, rfl⟩

/-- Claim C8: building twice with the same node array yields identical
serialized results — the outcome is independent of the previously stored
state, so a repeated `build` reproduces the same roots, errors and JSON. -/
theorem claim_C8 (t1 t2 : SemanticTree) (ns : List RawNode) :
    ((t1.build (.array ns)).2).toJSON = ((t2.build (.array ns)).2).toJSON
    ∧ (((t1.build (.array ns)).2).build (.array ns)).2.toJSON
        = ((t1.build (.array ns)).2).toJSON
    ∧ (((t1.build (.array ns)).2).build (.array ns)).2.getRoots
        = ((t1.build (.array ns)).2).getRoots
    ∧ (((t1.build (.array ns)).2).build (.array ns)).2.getErrors
        = ((t1.build (.array ns)).2).getErrors :=
  ⟨rfl, rfl, rfl, rfl⟩

/-- Claim C3: each of the four public entry points throws exactly on a
non-array argument; on any array argument it returns normally (every internal
failure having been degraded to a diagnostic record). -/
theorem claim_C3 (t : SemanticTree) (x : JsArg RawNode) (y z w : JsArg UIComponent) :
    (((t.build x).1.raised = true) ↔ x = JsArg.notArray)
    ∧ (((generateReadingOrder y).raised = true) ↔ y = JsArg.notArray)
    ∧ (((buildTabOrder z).raised = true) ↔ z = JsArg.notArray)
    ∧ (((runAudit w).raised = true) ↔ w = JsArg.notArray) := by
  refine ⟨?_, ?_, ?_, ?_⟩
  · cases x <;> simp [SemanticTree.build, Except.raised]
  · cases y <;> simp [generateReadingOrder, Except.raised]
  · cases z <;> simp [buildTabOrder, Except.raised]
  · cases w <;> simp [runAudit, Except.raised]

/-- Claim C5: classification lowercases the name and takes the first matching
substring of the ordered vocabulary `button`, `input`, `textbox`, `nav`,
`navigation`; in particular a name containing `input` but not `button`
classifies as `input`, i.e. an `InputField`, whatever else it contains. -/
theorem claim_C5 :
    (∀ name : String, resolveKey (some name) = specClassify (jsToLower name))
    ∧ (∀ name : String, strContainsSub (jsToLower name) ("input") = true →
        strContainsSub (jsToLower name) ("button") = false →
        resolveKey (some name) = ("input")
        ∧ List.lookup (resolveKey (some name)) COMPONENT_MAP = some FactoryKind.fInput) := by
  have main : ∀ name : String, resolveKey (some name) = specClassify (jsToLower name) := by
    intro name
    simp only [resolveKey, specClassify, COMPONENT_MAP, List.map, Option.getD]
    by_cases h1 : strContainsSub (jsToLower name) ("button") = true
    · simp [List.find?, h1]
    · rw [Bool.not_eq_true] at h1
      by_cases h2 : strContainsSub (jsToLower name) ("input") = true
      · simp [List.find?, h1, h2]
      · rw [Bool.not_eq_true] at h2
        by_cases h3 : strContainsSub (jsToLower name) ("textbox") = true
        · simp [List.find?, h1, h2, h3]
        · rw [Bool.not_eq_true] at h3
          by_cases h4 : strContainsSub (jsToLower name) ("nav") = true
          · simp [List.find?, h1, h2, h3, h4]
          · rw [Bool.not_eq_true] at h4
            by_cases h5 : strContainsSub (jsToLower name) ("navigation") = true
            · simp [List.find?, h1, h2, h3, h4, h5]
            · rw [Bool.not_eq_true] at h5
              simp [List.find?, h1, h2, h3, h4, h5]
  refine ⟨main, fun name hin hbtn => ?_⟩
  have hkey : resolveKey (some name) = ("input") := by
    rw [main name]
    simp [specClassify, hin, hbtn]
  exact ⟨hkey, by rw [hkey]; rfl⟩

/-- Witness for C5: `"My Input Nav"` contains both `input` and `nav` (and not
`button`), and classifies as `input`, hence an `InputField`. -/
theorem claim_C5_witness :
    resolveKey (some ("My Input Nav")) = ("input")
    ∧ List.lookup (resolveKey (some ("My Input Nav"))) COMPONENT_MAP
        = some FactoryKind.fInput :=
  claim_C5.2 ("My Input Nav") (by decide) (by decide)

/-- Claim C4: over trees of the repository's concrete component classes,
`buildTabOrder` returns exactly the pre-order sequence of components whose
`focusable` state entry is truthy, each as the pair of its label and its
`navigate()` hint — descending into every component's children regardless of
the parent's own focusability — and a freshly constructed `NavigationRegion`
has no truthy `focusable` entry, so it is excluded. -/
theorem claim_C4 (roots : List UIComponent) (h : roots.all wellBehaved = true) :
    buildTabOrder (.array roots) = .ok (specTabOrder roots)
    ∧ ∀ (i l : Option String) (c : UIComponent), newNavigationRegion i l = .ok c →
        truthy (c.getState ("focusable")) = false := by
  constructor
  · simp [buildTabOrder, flatten_kbCollect roots h]
  · intro i l c hc
    cases hsup : uiComponentSuper i l (some ("navigation")) with
    | error m => rw [newNavigationRegion, hsup] at hc; cases hc
    | ok trip =>
        obtain ⟨a, b, r0⟩ := trip
        rw [newNavigationRegion, hsup] at hc
        cases hc
        rfl

/-- Witness for C4: a `NavigationRegion` with two `Button` children yields a
tab order of the two buttons only, in document order; a fresh region has no
truthy `focusable` entry. -/
theorem claim_C4_witness :
    buildTabOrder (.array [sampleNav]) = .ok (specTabOrder [sampleNav])
    ∧ specTabOrder [sampleNav] =
        [⟨("Home Button"), ("Tab to focus \"Home Button\" button. Enter or Space to click.")⟩,
         ⟨("About Button"), ("Tab to focus \"About Button\" button. Enter or Space to click.")⟩]
    ∧ truthy (sampleNavEmpty.getState ("focusable")) = false :=
  ⟨(claim_C4 [sampleNav] (by decide)).1, by decide,
   (claim_C4 [] (by decide)).2 (some ("n1")) (some ("Nav")) sampleNavEmpty (by rfl)⟩

/-- Claim C6: over trees of the repository's concrete component classes,
`runAudit` produces exactly the specified audit: components in pre-order,
rules in table order (`LABEL_EMPTY`, `ROLE_PRESENT`, `FOCUSABLE_BUTTON`), one
formatted entry per (component, rule) pair into `passed` or `failed`, hence
`3 × N` total entries for `N` components. -/
theorem claim_C6 (roots : List UIComponent) (h : roots.all wellBehaved = true) :
    runAudit (.array roots) = .ok (specAudit roots)
    ∧ (specAudit roots).passed.length + (specAudit roots).failed.length
        = 3 * (preorderAll roots).length := by
  constructor
  · obtain ⟨h1, h2⟩ := flatten_audit roots h
    simp only [runAudit, h1, h2]
  · exact specAudit_parts_length (preorderAll roots)

/-- Witness for C6: the sample region with two buttons has 3 components and
its audit carries exactly 9 entries. -/
theorem claim_C6_witness :
    runAudit (.array [sampleNav]) = .ok (specAudit [sampleNav])
    ∧ (specAudit [sampleNav]).passed.length + (specAudit [sampleNav]).failed.length
        = 3 * (preorderAll [sampleNav]).length
    ∧ (preorderAll [sampleNav]).length = 3 :=
  ⟨(claim_C6 [sampleNav] (by decide)).1, (claim_C6 [sampleNav] (by decide)).2, by decide⟩

/-- Counterexample to claim C2 as stated: `brokenPanel` throws in
`describe()`/`navigate()` and `brokenLabelPanel` in `getLabel()`; each has a
well-formed `Button` child that produces an entry when visited directly, yet
every pass's output for the parent is the single placeholder entry — the
children are NOT traversed and contribute nothing. -/
theorem claim_C2_counterexample :
    generateReadingOrder (.array [brokenPanel])
      = .ok (["[Screen reader error for component: boom]"])
    ∧ srTraverse (.mk .button ("btn-1") ("Home") ("button")
        [(("focusable"), true), (("disabled"), false)] .nil)
      = ["Button: \"Home\". Press Enter or Space to activate."]
    ∧ ¬ (("Button: \"Home\". Press Enter or Space to activate.")
          ∈ (generateReadingOrder (.array [brokenPanel])).toOption.getD [])
    ∧ buildTabOrder (.array [brokenPanel])
      = .ok ([⟨("unknown"), ("[Navigation error: boom]")⟩])
    ∧ kbCollect (.mk .button ("btn-1") ("Home") ("button")
        [(("focusable"), true), (("disabled"), false)] .nil)
      = [⟨("Home"), ("Tab to focus \"Home\" button. Enter or Space to click.")⟩]
    ∧ runAudit (.array [brokenLabelPanel])
      = .ok ⟨[], ["[AUDIT_ERROR] Unexpected error auditing component: boom"]⟩ := by
  refine ⟨rfl, by decide, by decide, rfl, by decide, rfl⟩

/-- Claim C2 (amended): when a component's `describe()`, `navigate()` or an
accessor used by a rule check throws, the pass substitutes a single
diagnostic placeholder entry in place of that component's output and does NOT
continue into that component's children — the failing component's whole
subtree contributes only that placeholder (siblings and ancestors are
unaffected, as the recovery is local to the component's traversal call). -/
theorem claim_C2 (c : UIComponent) (m : String) :
    (c.describe = .error m →
      srTraverse c = ["[Screen reader error for component: " ++ m ++ "]"])
    ∧ (∀ lab : String, truthy (c.getState ("focusable")) = true →
        c.getLabel = .ok lab → c.navigate = .error m →
        kbCollect c = [⟨("unknown"), "[Navigation error: " ++ m ++ "]"⟩])
    ∧ (c.getLabel = .error m →
        auditComponent c
          = ([], ["[AUDIT_ERROR] Unexpected error auditing component: " ++ m])) := by
  cases c with
  | mk v i l r st cs =>
      refine ⟨fun hd => ?_, fun lab hf hl hn => ?_, fun hl => ?_⟩
      · simp [srTraverse, hd]
      · simp [kbCollect, hf, hl, hn]
      · simp [auditComponent, RULES, runRulesLoop, RuleId.check, hl]

/-- Witness for the amended C2: the concrete broken components take exactly
the placeholder-and-skip path in each of the three passes. -/
theorem claim_C2_witness :
    srTraverse brokenPanel = ["[Screen reader error for component: " ++ ("boom") ++ "]"]
    ∧ kbCollect brokenPanel = [⟨("unknown"), "[Navigation error: " ++ ("boom") ++ "]"⟩]
    ∧ auditComponent brokenLabelPanel
        = ([], ["[AUDIT_ERROR] Unexpected error auditing component: " ++ ("boom")]) :=
  ⟨(claim_C2 brokenPanel ("boom")).1 (by rfl),
   (claim_C2 brokenPanel ("boom")).2.1 ("Panel") (by rfl) (by rfl) (by rfl),
   (claim_C2 brokenLabelPanel ("boom")).2.2 (by rfl)⟩

theorem notFalsy_getD (i : Option String) (h : ¬ jsFalsy i = true) : i.getD ("") ≠ ("") := by
  cases i <;> simp_all [jsFalsy]

theorem uiComponentSuper_ok (i l r : Option String) (a b c : String)
    (h : uiComponentSuper i l r = .ok (a, b, c)) :
    a ≠ ("") ∧ b ≠ ("") ∧ c ≠ ("") := by
  unfold uiComponentSuper at h
  split_ifs at h with h1 h2 h3
  injection h with h
  obtain ⟨ha, hb, hc⟩ : a = i.getD ("") ∧ b = l.getD ("") ∧ c = r.getD ("") := by
    have := h.symm
    simp only [Prod.mk.injEq] at this
    exact ⟨this.1, this.2.1, this.2.2⟩
  subst ha; subst hb; subst hc
  exact ⟨notFalsy_getD i h1, notFalsy_getD l h2, notFalsy_getD r h3⟩

theorem uiComponentSuper_falsy (i l r : Option String)
    (h : jsFalsy i = true ∨ jsFalsy l = true) :
    (uiComponentSuper i l r).raised = true := by
  rcases h with h | h
  · simp [uiComponentSuper, h, Except.raised]
  · by_cases hi : jsFalsy i = true <;> simp [uiComponentSuper, hi, h, Except.raised]

/-- Claim C9: no component ever carries an empty `id`, `label` or `role`: the
abstract constructor always throws; each concrete constructor throws when its
`id` or `label` argument is falsy and otherwise yields non-empty `id`,
`label`, `role`; `setLabel` throws on a falsy value and otherwise preserves
non-emptiness of the label while leaving `id` and `role` unchanged; and
`setState`/`addChild` leave `id`, `label` and `role` unchanged — so the
invariant is preserved by every operation. -/
theorem claim_C9 :
    (∀ i l r : Option String, (newUIComponent i l r).raised = true)
    ∧ (∀ i l : Option String, jsFalsy i = true ∨ jsFalsy l = true →
        (newButton i l).raised = true
        ∧ (∀ ty : String, (newInputField i l ty).raised = true)
        ∧ (newNavigationRegion i l).raised = true)
    ∧ (∀ (i l : Option String) (c : UIComponent), newButton i l = .ok c →
        c.id ≠ ("") ∧ c.label ≠ ("") ∧ c.role ≠ (""))
    ∧ (∀ (i l : Option String) (ty : String) (c : UIComponent), newInputField i l ty = .ok c →
        c.id ≠ ("") ∧ c.label ≠ ("") ∧ c.role ≠ (""))
    ∧ (∀ (i l : Option String) (c : UIComponent), newNavigationRegion i l = .ok c →
        c.id ≠ ("") ∧ c.label ≠ ("") ∧ c.role ≠ (""))
    ∧ (∀ (c : UIComponent) (l : Option String), jsFalsy l = true →
        (c.setLabel l).raised = true)
    ∧ (∀ (c : UIComponent) (l : Option String) (c2 : UIComponent), c.setLabel l = .ok c2 →
        c2.label ≠ ("") ∧ c2.id = c.id ∧ c2.role = c.role)
    ∧ (∀ (c : UIComponent) (k : String) (v : Bool),
        (c.setState k v).id = c.id ∧ (c.setState k v).label = c.label
          ∧ (c.setState k v).role = c.role)
    ∧ (∀ c ch : UIComponent,
        (c.addChild ch).id = c.id ∧ (c.addChild ch).label = c.label
          ∧ (c.addChild ch).role = c.role) := by
  refine ⟨fun i l r => rfl, ?_, ?_, ?_, ?_, ?_, ?_, ?_, ?_⟩
  · intro i l h
    have hb := uiComponentSuper_falsy i l (some ("button")) h
    have ht := uiComponentSuper_falsy i l (some ("textbox")) h
    have hn := uiComponentSuper_falsy i l (some ("navigation")) h
    refine ⟨?_, fun ty => ?_, ?_⟩
    · cases hs : uiComponentSuper i l (some ("button")) with
      | error m => simp [newButton, hs, Except.raised]
      | ok t => rw [hs] at hb; simp [Except.raised] at hb
    · cases hs : uiComponentSuper i l (some ("textbox")) with
      | error m => simp [newInputField, hs, Except.raised]
      | ok t => rw [hs] at ht; simp [Except.raised] at ht
    · cases hs : uiComponentSuper i l (some ("navigation")) with
      | error m => simp [newNavigationRegion, hs, Except.raised]
      | ok t => rw [hs] at hn; simp [Except.raised] at hn
  · intro i l c hc
    cases hs : uiComponentSuper i l (some ("button")) with
    | error m => rw [newButton, hs] at hc; cases hc
    | ok t =>
        obtain ⟨a, b, r0⟩ := t
        rw [newButton, hs] at hc
        cases hc
        simpa [UIComponent.id, UIComponent.label, UIComponent.role]
          using uiComponentSuper_ok i l (some ("button")) a b r0 hs
  · intro i l ty c hc
    cases hs : uiComponentSuper i l (some ("textbox")) with
    | error m => rw [newInputField, hs] at hc; cases hc
    | ok t =>
        obtain ⟨a, b, r0⟩ := t
        rw [newInputField, hs] at hc
        cases hc
        simpa [UIComponent.id, UIComponent.label, UIComponent.role]
          using uiComponentSuper_ok i l (some ("textbox")) a b r0 hs
  · intro i l c hc
    cases hs : uiComponentSuper i l (some ("navigation")) with
    | error m => rw [newNavigationRegion, hs] at hc; cases hc
    | ok t =>
        obtain ⟨a, b, r0⟩ := t
        rw [newNavigationRegion, hs] at hc
        cases hc
        simpa [UIComponent.id, UIComponent.label, UIComponent.role]
          using uiComponentSuper_ok i l (some ("navigation")) a b r0 hs
  · intro c l h
    simp [UIComponent.setLabel, h, Except.raised]
  · intro c l c2 hc
    unfold UIComponent.setLabel at hc
    split_ifs at hc with h1
    injection hc with hc
    subst hc
    exact ⟨notFalsy_getD l h1, rfl, rfl⟩
  · intro c k v
    exact ⟨rfl, rfl, rfl⟩
  · intro c ch
    exact ⟨rfl, rfl, rfl⟩

/-- Witness for C9: concrete runs of the guards and preservations — the
abstract constructor throws, `new Button("", "My Button")` throws, a
successful `new Button` has non-empty fields, `setLabel("")` throws, and a
successful `setLabel` keeps `id`/`role` with a non-empty label. -/
theorem claim_C9_witness :
    (newUIComponent (some ("id1")) (some ("label")) (some ("button"))).raised = true
    ∧ (newButton (some ("")) (some ("My Button"))).raised = true
    ∧ (newInputField (some ("id1")) none ("text")).raised = true
    ∧ (sampleHome.id ≠ ("") ∧ sampleHome.label ≠ ("") ∧ sampleHome.role ≠ (""))
    ∧ (sampleHome.setLabel (some (""))).raised = true
    ∧ ((sampleHome.setLabel (some ("Start"))).toOption.getD sampleHome).label ≠ ("") :=
  ⟨claim_C9.1 (some ("id1")) (some ("label")) (some ("button")),
   (claim_C9.2.1 (some ("")) (some ("My Button")) (Or.inl (by decide))).1,
   (claim_C9.2.1 (some ("id1")) none (Or.inr (by decide))).2.1 ("text"),
   claim_C9.2.2.1 (some ("b1")) (some ("Home Button")) sampleHome (by rfl),
   claim_C9.2.2.2.2.2.1 sampleHome (some ("")) (by decide),
   (claim_C9.2.2.2.2.2.2.1 sampleHome (some ("Start"))
     (.mk .button ("b1") ("Start") ("button")
       [(("focusable"), true), (("disabled"), false)] .nil) (by rfl)).1⟩

/-- Claim C10: `getRoots()`/`getErrors()` return freshly allocated copies of
the stored arrays; overwriting the returned array with any contents leaves
the stored arrays — hence what later `getRoots()`/`getErrors()`/`toJSON()`
calls observe — unchanged. -/
theorem claim_C10 (t : SemanticTreeRefs) (sc : Store UIComponent) (se : Store ParseError)
    (v : List UIComponent) (w : List ParseError)
    (hc : t.rootsRef < sc.cells.length) (he : t.errorsRef < se.cells.length) :
    ((getRootsH t sc).2).read (getRootsH t sc).1 = sc.read t.rootsRef
    ∧ ((getErrorsH t se).2).read (getErrorsH t se).1 = se.read t.errorsRef
    ∧ ((((getRootsH t sc).2).write (getRootsH t sc).1 v)).read t.rootsRef = sc.read t.rootsRef
    ∧ ((((getErrorsH t se).2).write (getErrorsH t se).1 w)).read t.errorsRef = se.read t.errorsRef
    ∧ toJSONH t (((getRootsH t sc).2).write (getRootsH t sc).1 v)
        (((getErrorsH t se).2).write (getErrorsH t se).1 w)
      = toJSONH t sc se := by
  have hnc : (getRootsH t sc).1 ≠ t.rootsRef := by
    show sc.cells.length ≠ t.rootsRef
    omega
  have hne : (getErrorsH t se).1 ≠ t.errorsRef := by
    show se.cells.length ≠ t.errorsRef
    omega
  have hrc : ((((getRootsH t sc).2).write (getRootsH t sc).1 v)).read t.rootsRef
      = sc.read t.rootsRef := by
    rw [store_read_write_ne _ _ _ _ hnc]
    exact store_read_alloc_old sc _ _ hc
  have hre : ((((getErrorsH t se).2).write (getErrorsH t se).1 w)).read t.errorsRef
      = se.read t.errorsRef := by
    rw [store_read_write_ne _ _ _ _ hne]
    exact store_read_alloc_old se _ _ he
  refine ⟨store_read_alloc_new sc _, store_read_alloc_new se _, hrc, hre, ?_⟩
  simp [toJSONH, hrc, hre]

/-- Witness for C10: one stored roots array and one stored errors array;
emptying the returned copies leaves the stored contents observable. -/
theorem claim_C10_witness :
    ((getRootsH ⟨0, 0⟩ ⟨[[sampleHome]]⟩).2).read (getRootsH ⟨0, 0⟩ ⟨[[sampleHome]]⟩).1
        = Store.read ⟨[[sampleHome]]⟩ 0
    ∧ ((((getRootsH ⟨0, 0⟩ ⟨[[sampleHome]]⟩).2).write
          (getRootsH ⟨0, 0⟩ ⟨[[sampleHome]]⟩).1 [])).read 0
        = Store.read ⟨[[sampleHome]]⟩ 0
    ∧ toJSONH ⟨0, 0⟩
        (((getRootsH ⟨0, 0⟩ ⟨[[sampleHome]]⟩).2).write
          (getRootsH ⟨0, 0⟩ ⟨[[sampleHome]]⟩).1 [])
        (((getErrorsH ⟨0, 0⟩ ⟨[[⟨("e1"), ("m1")⟩]]⟩).2).write
          (getErrorsH ⟨0, 0⟩ ⟨[[⟨("e1"), ("m1")⟩]]⟩).1 [])
      = toJSONH ⟨0, 0⟩ ⟨[[sampleHome]]⟩ ⟨[[⟨("e1"), ("m1")⟩]]⟩ := by
  have h := claim_C10 ⟨0, 0⟩ ⟨[[sampleHome]]⟩ ⟨[[⟨("e1"), ("m1")⟩]]⟩ [] []
    (by decide) (by decide)
  exact ⟨h.1, h.2.2.1, h.2.2.2.2⟩
